import Mathlib

set_option linter.unusedVariables false

/-!
Verification of the retry/escalation orchestrator of `chying_agent`
(`src/chying_agent/retry_strategy.py`), shallowly embedded in Lean.

Modelling conventions:
- Python strings are Lean `String`; Python `pat in s` is `strContains s pat`;
  Python `str.lower()` is per-character simple lowercasing (`strLower`).
- Python dicts with known keys become structures whose fields are `Option`s:
  `none` models an absent key (or an absent attribute), and `dict.get(k, d)`
  becomes `Option.getD`.
- Opaque model handles are a type parameter `α`; `str(x)` renderings of opaque
  log entries and findings are modelled as the already-rendered `String`s.
- Logging calls are informational side effects and are dropped.
-/

/-- Model of the Python substring test `pat in s`, at the character-list
level: `containsSub pat l` holds when `pat` occurs contiguously in `l`. -/
def containsSub (pat : List Char) : List Char → Bool
  | [] => pat.isEmpty
  | c :: rest => pat.isPrefixOf (c :: rest) || containsSub pat rest

/-- Model of Python `pat in s` on strings. -/
def strContains (s pat : String) : Bool :=
  containsSub pat.data s.data

/-- Model of Python `s.lower()`: simple per-character lowercasing. -/
def strLower (s : String) : String :=
  ⟨s.data.map Char.toLower⟩

/-- The fields of `AgentConfig` (src/chying_agent/config.py) read by
`RetryStrategy.get_llm_pair`. -/
structure AgentConfig where
  llm_backend : String
  llm_model_name : String
  ollama_main_model : String
  ollama_advisor_model : String
deriving DecidableEq

/-- `RetryStrategy` instance state: the configuration and the two model
handles created once in `__init__` (`main_llm`, `advisor_llm`). The handle
type is an opaque parameter `α`. -/
structure RetryStrategy (α : Type) where
  config : AgentConfig
  main_llm : α
  advisor_llm : α

/-- The backend-dependent display name of the main model, as selected in
`get_llm_pair` (retry_strategy.py lines 70-75). -/
def RetryStrategy.mainDisplayName {α : Type} (s : RetryStrategy α) : String :=
  if s.config.llm_backend = "ollama" then s.config.ollama_main_model else "DeepSeek"

/-- The backend-dependent display name of the advisor model, as selected in
`get_llm_pair` (retry_strategy.py lines 70-75). -/
def RetryStrategy.advisorDisplayName {α : Type} (s : RetryStrategy α) : String :=
  if s.config.llm_backend = "ollama" then s.config.ollama_advisor_model else "MiniMax"

/-- Embedding of `RetryStrategy.get_llm_pair` (retry_strategy.py lines
52-98): returns `(main agent, advisor agent, strategy description)`.
`retry_count % 2` uses `Int.emod`, which agrees with Python `%` for the
positive modulus 2. -/
def RetryStrategy.get_llm_pair {α : Type} (s : RetryStrategy α) (retry_count : Int) :
    α × α × String :=
  let main_name := s.mainDisplayName
  let advisor_name := s.advisorDisplayName
  let is_even := retry_count % 2 == 0
  if is_even then
    let desc0 := main_name ++ " (主) + " ++ advisor_name ++ " (顾问)"
    let desc :=
      if retry_count > 0 then desc0 ++ " [重试 " ++ toString retry_count ++ "]" else desc0
    (s.main_llm, s.advisor_llm, desc)
  else
    (s.advisor_llm, s.main_llm,
      advisor_name ++ " (主) + " ++ main_name ++ " (顾问)" ++ " [重试 " ++
        toString retry_count ++ "]")

/-- A message of the raw final state; `tool_calls = none` models a message
object without a `tool_calls` attribute (or with value `None`), and
`some l` models an attribute holding the list `l`. -/
structure Message where
  tool_calls : Option (List String)
deriving DecidableEq

/-- The raw final state consumed by `extract_attempt_summary`; each field is
`none` when the corresponding dict key is absent. Action-history entries and
discovered vulnerabilities appear through their `str(...)` renderings. -/
structure FinalState where
  action_history : Option (List String)
  messages : Option (List Message)
  potential_vulnerabilities : Option (List String)
  start_time : Option String
deriving DecidableEq

/-- The fixed failure-keyword list of `extract_attempt_summary`
(retry_strategy.py line 163). -/
def failureKeywords : List String :=
  ["失败", "错误", "error", "failed"]

/-- The per-entry failure test of `extract_attempt_summary` (line 163):
`any(keyword in str(action).lower() for keyword in [...])`. -/
def isFailedAction (action : String) : Bool :=
  failureKeywords.any (fun keyword => strContains (strLower action) keyword)

/-- The per-message test on line 170: `hasattr(m, 'tool_calls') and
m.tool_calls` (a present, non-empty tool-call list). -/
def hasToolCalls (m : Message) : Bool :=
  match m.tool_calls with
  | some (_ :: _) => true
  | _ => false

/-- An attempt-summary dict as consumed by `format_attempt_history`; each
field is `none` when the key is absent, so `attempt.get(k, d)` becomes
`Option.getD`. `extract_attempt_summary` produces records with every field
present (the timestamp value itself may be the absent value). -/
structure AttemptRecord where
  strategy : Option String
  attempts : Option Nat
  failed_methods : Option (List String)
  key_findings : Option (List String)
  timestamp : Option String
deriving DecidableEq

/-- Embedding of the static method `RetryStrategy.extract_attempt_summary`
(retry_strategy.py lines 145-178). -/
def RetryStrategy.extract_attempt_summary (final_state : FinalState) (strategy : String) :
    AttemptRecord :=
  let action_history := final_state.action_history.getD []
  let messages := final_state.messages.getD []
  let failed_methods := action_history.filter isFailedAction
  let key_findings := final_state.potential_vulnerabilities.getD []
  let attempts_count := (messages.filter hasToolCalls).length
  { strategy := some strategy
    attempts := some attempts_count
    failed_methods := some failed_methods
    key_findings := some (if key_findings.isEmpty then [] else key_findings)
    timestamp := final_state.start_time }

/-- The failed-methods bullet block of one attempt section
(retry_strategy.py lines 127-130): emitted only when non-empty, truncated
to the first 10 entries. -/
def failedMethodsBlock (failed_methods : List String) : List String :=
  if failed_methods.isEmpty then []
  else "- **已失败的方法**:\n" ::
    (failed_methods.take 10).map (fun method => "  - ❌ " ++ method ++ "\n")

/-- The key-findings bullet block of one attempt section (retry_strategy.py
lines 132-135): emitted only when non-empty, truncated to the first 5
entries. -/
def keyFindingsBlock (key_findings : List String) : List String :=
  if key_findings.isEmpty then []
  else "- **关键发现**:\n" ::
    (key_findings.take 5).map (fun finding => "  - 💡 " ++ finding ++ "\n")

/-- The parts appended for the `i`-th (1-based) attempt in the loop of
`format_attempt_history` (retry_strategy.py lines 118-137). -/
def formatAttemptSection (i : Nat) (attempt : AttemptRecord) : List String :=
  ["### 尝试 " ++ toString i ++ "：" ++ attempt.strategy.getD "未知策略" ++ "\n",
   "- **尝试次数**: " ++ toString (attempt.attempts.getD 0) ++ "\n"]
  ++ failedMethodsBlock (attempt.failed_methods.getD [])
  ++ keyFindingsBlock (attempt.key_findings.getD [])
  ++ ["\n"]

/-- The introductory heading of `format_attempt_history` (line 115). -/
def historyHeader : String :=
  "## 📜 历史尝试记录（请避免重复这些失败的方法）\n"

/-- The cautionary closing note of `format_attempt_history` (line 140). -/
def closingNote : String :=
  "**⚠️ 重要提示**: 上述方法均已失败，请尝试完全不同的攻击角度！\n"

/-- The full `formatted_parts` list built by `format_attempt_history` for a
history (header, one section per attempt enumerated from 1, closing note). -/
def formatParts (attempt_history : List AttemptRecord) : List String :=
  [historyHeader]
  ++ (attempt_history.enum.map (fun p => formatAttemptSection (p.1 + 1) p.2)).flatten
  ++ [closingNote]

/-- Embedding of the static method `RetryStrategy.format_attempt_history`
(retry_strategy.py lines 100-143): empty history short-circuits to `""`,
otherwise the parts are joined. -/
def RetryStrategy.format_attempt_history (attempt_history : List AttemptRecord) : String :=
  if attempt_history.isEmpty then "" else String.join (formatParts attempt_history)

/-- One failed-methods bullet line, as emitted on retry_strategy.py line 130. -/
def isFailedBullet (p : String) : Bool :=
  List.isPrefixOf "  - ❌ ".data p.data

/-- One key-findings bullet line, as emitted on retry_strategy.py line 135. -/
def isFindingBullet (p : String) : Bool :=
  List.isPrefixOf "  - 💡 ".data p.data

/-- A concrete strategy instance used by the closed witness theorems. -/
def demoStrategy : RetryStrategy Bool :=
  { config :=
      { llm_backend := "api"
        llm_model_name := "deepseek-v3.1-terminus"
        ollama_main_model := "deepseek-r1:32b"
        ollama_advisor_model := "qwen3:latest" }
    main_llm := true
    advisor_llm := false }

/-- An attempt-summary dict with every key absent, used by witnesses. -/
def allNoneRecord : AttemptRecord :=
  { strategy := none, attempts := none, failed_methods := none,
    key_findings := none, timestamp := none }

theorem containsSub_iff (pat l : List Char) :
    containsSub pat l = true ↔ pat <:+: l := by
  induction l with
  | nil => simp [containsSub, List.isEmpty_iff]
  | cons c rest ih =>
    simp only [containsSub, Bool.or_eq_true, List.isPrefixOf_iff_prefix, ih]
    rw [List.infix_cons_iff]

theorem strContains_iff (s pat : String) :
    strContains s pat = true ↔ pat.data <:+: s.data := by
  simp [strContains, containsSub_iff]

theorem strContains_self (s : String) : strContains s s = true := by
  simp [strContains_iff]

theorem strContains_append_right {s pat : String} (y : String)
    (h : strContains s pat = true) : strContains (s ++ y) pat = true := by
  rw [strContains_iff] at h ⊢
  rw [String.data_append]
  exact h.trans (List.infix_append' [] s.data y.data)

theorem strContains_append_left (x : String) {s pat : String}
    (h : strContains s pat = true) : strContains (x ++ s) pat = true := by
  rw [strContains_iff] at h ⊢
  rw [String.data_append]
  refine h.trans ⟨x.data, [], ?_⟩
  simp

theorem strContains_self_append (pat y : String) :
    strContains (pat ++ y) pat = true :=
  strContains_append_right y (strContains_self pat)

theorem strContains_assoc_suffix (x a b c : String) :
    strContains (x ++ a ++ b ++ c) (a ++ b ++ c) = true := by
  rw [strContains_iff]
  refine ⟨x.data, [], ?_⟩
  simp [List.append_assoc]

theorem isPrefixOf_append_self (p rest : List Char) :
    List.isPrefixOf p (p ++ rest) = true :=
  List.isPrefixOf_iff_prefix.mpr (List.prefix_append p rest)

theorem isPrefixOf_eq_false_of_head_ne (a b : Char) (as bs : List Char) (h : a ≠ b) :
    List.isPrefixOf (a :: as) (b :: bs) = false := by
  have hb : (a == b) = false := beq_eq_false_iff_ne.mpr h
  simp [List.isPrefixOf, hb]

theorem data_head?_append (s t : String) (c : Char) (h : s.data.head? = some c) :
    (s ++ t).data.head? = some c := by
  rw [String.data_append]
  cases hs : s.data with
  | nil => rw [hs] at h; simp at h
  | cons a l =>
    rw [hs] at h
    simp only [List.head?_cons, Option.some.injEq] at h
    simp [h]

theorem isFailedBullet_bullet (m : String) :
    isFailedBullet ("  - ❌ " ++ m ++ "\n") = true := by
  unfold isFailedBullet
  have h : ("  - ❌ " ++ m ++ "\n").data =
      "  - ❌ ".data ++ (m.data ++ "\n".data) := by
    simp [List.append_assoc]
  rw [h]
  exact isPrefixOf_append_self _ _

theorem isFindingBullet_bullet (f : String) :
    isFindingBullet ("  - 💡 " ++ f ++ "\n") = true := by
  unfold isFindingBullet
  have h : ("  - 💡 " ++ f ++ "\n").data =
      "  - 💡 ".data ++ (f.data ++ "\n".data) := by
    simp [List.append_assoc]
  rw [h]
  exact isPrefixOf_append_self _ _

theorem isFailedBullet_finding (f : String) :
    isFailedBullet ("  - 💡 " ++ f ++ "\n") = false := by
  unfold isFailedBullet
  have h1 : "  - ❌ ".data = ' ' :: ' ' :: '-' :: ' ' :: '❌' :: [' '] := rfl
  have h2 : ("  - 💡 " ++ f ++ "\n").data =
      ' ' :: ' ' :: '-' :: ' ' :: '💡' :: ' ' :: (f.data ++ "\n".data) := by
    have : ("  - 💡 " ++ f ++ "\n").data =
        "  - 💡 ".data ++ (f.data ++ "\n".data) := by
      simp [List.append_assoc]
    rw [this]
    rfl
  rw [h1, h2]
  simp [List.isPrefixOf]

theorem isFindingBullet_failed (m : String) :
    isFindingBullet ("  - ❌ " ++ m ++ "\n") = false := by
  unfold isFindingBullet
  have h1 : "  - 💡 ".data = ' ' :: ' ' :: '-' :: ' ' :: '💡' :: [' '] := rfl
  have h2 : ("  - ❌ " ++ m ++ "\n").data =
      ' ' :: ' ' :: '-' :: ' ' :: '❌' :: ' ' :: (m.data ++ "\n".data) := by
    have : ("  - ❌ " ++ m ++ "\n").data =
        "  - ❌ ".data ++ (m.data ++ "\n".data) := by
      simp [List.append_assoc]
    rw [this]
    rfl
  rw [h1, h2]
  simp [List.isPrefixOf]

theorem isFailedBullet_of_head_ne (p : String) (c : Char) (h : p.data.head? = some c)
    (hc : c ≠ ' ') : isFailedBullet p = false := by
  unfold isFailedBullet
  cases hp : p.data with
  | nil => rw [hp] at h; simp at h
  | cons b bs =>
    rw [hp] at h
    simp only [List.head?_cons, Option.some.injEq] at h
    subst h
    have h1 : "  - ❌ ".data = ' ' :: [' ', '-', ' ', '❌', ' '] := rfl
    rw [h1]
    exact isPrefixOf_eq_false_of_head_ne _ _ _ _ (Ne.symm hc)

theorem isFindingBullet_of_head_ne (p : String) (c : Char) (h : p.data.head? = some c)
    (hc : c ≠ ' ') : isFindingBullet p = false := by
  unfold isFindingBullet
  cases hp : p.data with
  | nil => rw [hp] at h; simp at h
  | cons b bs =>
    rw [hp] at h
    simp only [List.head?_cons, Option.some.injEq] at h
    subst h
    have h1 : "  - 💡 ".data = ' ' :: [' ', '-', ' ', '💡', ' '] := rfl
    rw [h1]
    exact isPrefixOf_eq_false_of_head_ne _ _ _ _ (Ne.symm hc)

theorem head_section_title (i : Nat) (strat : String) :
    ("### 尝试 " ++ toString i ++ "：" ++ strat ++ "\n").data.head? = some '#' := by
  apply data_head?_append
  apply data_head?_append
  apply data_head?_append
  apply data_head?_append
  rfl

theorem head_section_count (n : Nat) :
    ("- **尝试次数**: " ++ toString n ++ "\n").data.head? = some '-' := by
  apply data_head?_append
  apply data_head?_append
  rfl

theorem countP_isFailedBullet_failedBlock (fm : List String) :
    (failedMethodsBlock fm).countP isFailedBullet = min 10 fm.length := by
  unfold failedMethodsBlock
  by_cases h : fm.isEmpty
  · rw [if_pos h, List.isEmpty_iff.mp h]
    simp
  · rw [if_neg h]
    rw [List.countP_cons_of_neg]
    · rw [List.countP_eq_length.mpr, List.length_map, List.length_take]
      intro p hp
      rw [List.mem_map] at hp
      obtain ⟨m, _, rfl⟩ := hp
      exact isFailedBullet_bullet m
    · rw [isFailedBullet_of_head_ne "- **已失败的方法**:\n" '-' rfl (by decide)]
      simp

theorem countP_isFindingBullet_findingBlock (kf : List String) :
    (keyFindingsBlock kf).countP isFindingBullet = min 5 kf.length := by
  unfold keyFindingsBlock
  by_cases h : kf.isEmpty
  · rw [if_pos h, List.isEmpty_iff.mp h]
    simp
  · rw [if_neg h]
    rw [List.countP_cons_of_neg]
    · rw [List.countP_eq_length.mpr, List.length_map, List.length_take]
      intro p hp
      rw [List.mem_map] at hp
      obtain ⟨f, _, rfl⟩ := hp
      exact isFindingBullet_bullet f
    · rw [isFindingBullet_of_head_ne "- **关键发现**:\n" '-' rfl (by decide)]
      simp

theorem countP_isFailedBullet_findingBlock (kf : List String) :
    (keyFindingsBlock kf).countP isFailedBullet = 0 := by
  unfold keyFindingsBlock
  by_cases h : kf.isEmpty
  · rw [if_pos h]
    simp
  · rw [if_neg h]
    rw [List.countP_eq_zero]
    intro p hp
    rw [List.mem_cons, List.mem_map] at hp
    rcases hp with rfl | ⟨f, _, rfl⟩
    · rw [isFailedBullet_of_head_ne "- **关键发现**:\n" '-' rfl (by decide)]
      simp
    · rw [isFailedBullet_finding]
      simp

theorem countP_isFindingBullet_failedBlock (fm : List String) :
    (failedMethodsBlock fm).countP isFindingBullet = 0 := by
  unfold failedMethodsBlock
  by_cases h : fm.isEmpty
  · rw [if_pos h]
    simp
  · rw [if_neg h]
    rw [List.countP_eq_zero]
    intro p hp
    rw [List.mem_cons, List.mem_map] at hp
    rcases hp with rfl | ⟨m, _, rfl⟩
    · rw [isFindingBullet_of_head_ne "- **已失败的方法**:\n" '-' rfl (by decide)]
      simp
    · rw [isFindingBullet_failed]
      simp

theorem countP_isFailedBullet_section (i : Nat) (a : AttemptRecord) :
    (formatAttemptSection i a).countP isFailedBullet =
      min 10 (a.failed_methods.getD []).length := by
  unfold formatAttemptSection
  rw [List.countP_append, List.countP_append, List.countP_append]
  rw [countP_isFailedBullet_failedBlock, countP_isFailedBullet_findingBlock]
  have h1 : List.countP isFailedBullet
      ["### 尝试 " ++ toString i ++ "：" ++ a.strategy.getD "未知策略" ++ "\n",
       "- **尝试次数**: " ++ toString (a.attempts.getD 0) ++ "\n"] = 0 := by
    rw [List.countP_eq_zero]
    intro p hp
    rw [List.mem_cons, List.mem_cons] at hp
    rcases hp with rfl | rfl | hp
    · rw [isFailedBullet_of_head_ne _ '#' (head_section_title i _) (by decide)]
      simp
    · rw [isFailedBullet_of_head_ne _ '-' (head_section_count _) (by decide)]
      simp
    · simp at hp
  have h2 : List.countP isFailedBullet ["\n"] = 0 := by
    rw [List.countP_eq_zero]
    intro p hp
    rw [List.mem_singleton] at hp
    subst hp
    rw [isFailedBullet_of_head_ne "\n" '\n' rfl (by decide)]
    simp
  omega

theorem countP_isFindingBullet_section (i : Nat) (a : AttemptRecord) :
    (formatAttemptSection i a).countP isFindingBullet =
      min 5 (a.key_findings.getD []).length := by
  unfold formatAttemptSection
  rw [List.countP_append, List.countP_append, List.countP_append]
  rw [countP_isFindingBullet_failedBlock, countP_isFindingBullet_findingBlock]
  have h1 : List.countP isFindingBullet
      ["### 尝试 " ++ toString i ++ "：" ++ a.strategy.getD "未知策略" ++ "\n",
       "- **尝试次数**: " ++ toString (a.attempts.getD 0) ++ "\n"] = 0 := by
    rw [List.countP_eq_zero]
    intro p hp
    rw [List.mem_cons, List.mem_cons] at hp
    rcases hp with rfl | rfl | hp
    · rw [isFindingBullet_of_head_ne _ '#' (head_section_title i _) (by decide)]
      simp
    · rw [isFindingBullet_of_head_ne _ '-' (head_section_count _) (by decide)]
      simp
    · simp at hp
  have h2 : List.countP isFindingBullet ["\n"] = 0 := by
    rw [List.countP_eq_zero]
    intro p hp
    rw [List.mem_singleton] at hp
    subst hp
    rw [isFindingBullet_of_head_ne "\n" '\n' rfl (by decide)]
    simp
  omega

theorem ne_closingNote_of_head (p : String) (c : Char) (h : p.data.head? = some c)
    (hc : c ≠ '*') : p ≠ closingNote := by
  intro he
  have h2 : closingNote.data.head? = some '*' := rfl
  rw [he, h2] at h
  injection h with h
  exact hc h.symm

theorem failedBlock_ne_closingNote (fm : List String) (p : String)
    (hp : p ∈ failedMethodsBlock fm) : p ≠ closingNote := by
  unfold failedMethodsBlock at hp
  by_cases h : fm.isEmpty
  · rw [if_pos h] at hp
    simp at hp
  · rw [if_neg h] at hp
    rw [List.mem_cons, List.mem_map] at hp
    rcases hp with rfl | ⟨m, _, rfl⟩
    · exact ne_closingNote_of_head _ '-' rfl (by decide)
    · refine ne_closingNote_of_head _ ' ' ?_ (by decide)
      apply data_head?_append
      apply data_head?_append
      rfl

theorem findingBlock_ne_closingNote (kf : List String) (p : String)
    (hp : p ∈ keyFindingsBlock kf) : p ≠ closingNote := by
  unfold keyFindingsBlock at hp
  by_cases h : kf.isEmpty
  · rw [if_pos h] at hp
    simp at hp
  · rw [if_neg h] at hp
    rw [List.mem_cons, List.mem_map] at hp
    rcases hp with rfl | ⟨f, _, rfl⟩
    · exact ne_closingNote_of_head _ '-' rfl (by decide)
    · refine ne_closingNote_of_head _ ' ' ?_ (by decide)
      apply data_head?_append
      apply data_head?_append
      rfl

theorem section_ne_closingNote (i : Nat) (a : AttemptRecord) (p : String)
    (hp : p ∈ formatAttemptSection i a) : p ≠ closingNote := by
  unfold formatAttemptSection at hp
  rw [List.mem_append, List.mem_append, List.mem_append] at hp
  rcases hp with ((hp | hp) | hp) | hp
  · rw [List.mem_cons, List.mem_cons] at hp
    rcases hp with rfl | rfl | hp
    · exact ne_closingNote_of_head _ '#' (head_section_title i _) (by decide)
    · exact ne_closingNote_of_head _ '-' (head_section_count _) (by decide)
    · simp at hp
  · exact failedBlock_ne_closingNote _ _ hp
  · exact findingBlock_ne_closingNote _ _ hp
  · rw [List.mem_singleton] at hp
    subst hp
    exact ne_closingNote_of_head _ '\n' rfl (by decide)

theorem count_closingNote_formatParts (h : List AttemptRecord) :
    (formatParts h).count closingNote = 1 := by
  unfold formatParts
  rw [List.count_append, List.count_append]
  have hh : List.count closingNote [historyHeader] = 0 := by decide
  have hb : List.count closingNote
      ((h.enum.map fun p => formatAttemptSection (p.1 + 1) p.2).flatten) = 0 := by
    rw [List.count_eq_zero]
    intro hmem
    rw [List.mem_flatten] at hmem
    obtain ⟨l, hl, hcl⟩ := hmem
    rw [List.mem_map] at hl
    obtain ⟨q, _, rfl⟩ := hl
    exact section_ne_closingNote _ _ _ hcl rfl
  have hn : List.count closingNote [closingNote] = 1 := by
    simp
  omega

theorem getLast_formatParts (h : List AttemptRecord) :
    (formatParts h).getLast? = some closingNote := by
  unfold formatParts
  rw [List.getLast?_append]
  rfl

theorem formatAttemptSection_shape (i : Nat) (a : AttemptRecord) :
    ∃ rest, formatAttemptSection i a =
      ("### 尝试 " ++ toString i ++ "：" ++ a.strategy.getD "未知策略" ++ "\n") ::
      ("- **尝试次数**: " ++ toString (a.attempts.getD 0) ++ "\n") :: rest :=
  ⟨_, rfl⟩

theorem hasToolCalls_eq (m : Message) :
    hasToolCalls m = !(m.tool_calls.getD []).isEmpty := by
  obtain ⟨tc⟩ := m
  cases tc with
  | none => rfl
  | some l => cases l <;> rfl

theorem get_llm_pair_even {α : Type} (s : RetryStrategy α) (k : Int) (h : k % 2 = 0) :
    (s.get_llm_pair k).1 = s.main_llm ∧ (s.get_llm_pair k).2.1 = s.advisor_llm := by
  unfold RetryStrategy.get_llm_pair
  simp [h]

theorem get_llm_pair_odd {α : Type} (s : RetryStrategy α) (k : Int) (h : k % 2 = 1) :
    (s.get_llm_pair k).1 = s.advisor_llm ∧ (s.get_llm_pair k).2.1 = s.main_llm := by
  unfold RetryStrategy.get_llm_pair
  simp [h]

theorem get_llm_pair_desc_even {α : Type} (s : RetryStrategy α) (k : Int) (h : k % 2 = 0) :
    (s.get_llm_pair k).2.2 =
      if k > 0
      then s.mainDisplayName ++ " (主) + " ++ s.advisorDisplayName ++ " (顾问)" ++
        " [重试 " ++ toString k ++ "]"
      else s.mainDisplayName ++ " (主) + " ++ s.advisorDisplayName ++ " (顾问)" := by
  unfold RetryStrategy.get_llm_pair
  simp only [h]
  by_cases hk : k > 0 <;> simp [hk]

theorem get_llm_pair_desc_odd {α : Type} (s : RetryStrategy α) (k : Int) (h : k % 2 = 1) :
    (s.get_llm_pair k).2.2 =
      s.advisorDisplayName ++ " (主) + " ++ s.mainDisplayName ++ " (顾问)" ++
        " [重试 " ++ toString k ++ "]" := by
  unfold RetryStrategy.get_llm_pair
  simp [h]

/-- C1: for every non-negative retry index, `get_llm_pair` assigns the main
handle as primary and the advisor handle as advisor at even indices, and the
reverse at odd indices; the two returned handles are always exactly the two
handles held by the strategy, each in exactly one role (so primary and
advisor differ whenever the handles differ), and the function is
deterministic in the index. -/
theorem C1_get_llm_pair_roles {α : Type} (s : RetryStrategy α) (k : Int) (hk : 0 ≤ k) :
    (k % 2 = 0 →
      (s.get_llm_pair k).1 = s.main_llm ∧ (s.get_llm_pair k).2.1 = s.advisor_llm) ∧
    (k % 2 = 1 →
      (s.get_llm_pair k).1 = s.advisor_llm ∧ (s.get_llm_pair k).2.1 = s.main_llm) ∧
    ((s.get_llm_pair k).1 = s.main_llm ∧ (s.get_llm_pair k).2.1 = s.advisor_llm ∨
     (s.get_llm_pair k).1 = s.advisor_llm ∧ (s.get_llm_pair k).2.1 = s.main_llm) ∧
    (s.main_llm ≠ s.advisor_llm → (s.get_llm_pair k).1 ≠ (s.get_llm_pair k).2.1) ∧
    s.get_llm_pair k = s.get_llm_pair k := by
  refine ⟨get_llm_pair_even s k, get_llm_pair_odd s k, ?_, ?_, rfl⟩
  · rcases Int.emod_two_eq k with h | h
    · exact Or.inl (get_llm_pair_even s k h)
    · exact Or.inr (get_llm_pair_odd s k h)
  · intro hne
    rcases Int.emod_two_eq k with h | h
    · obtain ⟨h1, h2⟩ := get_llm_pair_even s k h
      rw [h1, h2]
      exact hne
    · obtain ⟨h1, h2⟩ := get_llm_pair_odd s k h
      rw [h1, h2]
      exact fun he => hne he.symm

/-- Closed witness for C1 at retry index 2 on a concrete strategy. -/
theorem C1_get_llm_pair_roles_witness :
    (demoStrategy.get_llm_pair 2).1 = demoStrategy.main_llm ∧
    (demoStrategy.get_llm_pair 2).2.1 = demoStrategy.advisor_llm := by
  have h := C1_get_llm_pair_roles demoStrategy 2 (by decide)
  exact h.1 (by decide)

/-- C7: for every non-negative retry index the description returned by
`get_llm_pair` contains both backend-dependent display names (with their
role labels around them); for an index greater than 0 it carries the
literal retry-index suffix, while index 0 yields exactly the base label
with no retry-index suffix. -/
theorem C7_description {α : Type} (s : RetryStrategy α) (k : Int) (hk : 0 ≤ k) :
    strContains (s.get_llm_pair k).2.2 s.mainDisplayName = true ∧
    strContains (s.get_llm_pair k).2.2 s.advisorDisplayName = true ∧
    (0 < k →
      strContains (s.get_llm_pair k).2.2 (" [重试 " ++ toString k ++ "]") = true) ∧
    (k = 0 → (s.get_llm_pair k).2.2 =
      s.mainDisplayName ++ " (主) + " ++ s.advisorDisplayName ++ " (顾问)") := by
  rcases Int.emod_two_eq k with h | h
  · rw [get_llm_pair_desc_even s k h]
    by_cases hk0 : k > 0
    · rw [if_pos hk0]
      refine ⟨?_, ?_, fun _ => ?_, fun he => absurd he (by omega)⟩
      · repeat first
          | exact strContains_self _
          | exact strContains_self_append _ _
          | exact strContains_append_left _ (strContains_self _)
          | apply strContains_append_right
      · repeat first
          | exact strContains_self _
          | exact strContains_self_append _ _
          | exact strContains_append_left _ (strContains_self _)
          | apply strContains_append_right
      · exact strContains_assoc_suffix _ _ _ _
    · rw [if_neg hk0]
      refine ⟨?_, ?_, fun hlt => absurd hlt hk0, fun _ => rfl⟩
      · repeat first
          | exact strContains_self _
          | exact strContains_self_append _ _
          | exact strContains_append_left _ (strContains_self _)
          | apply strContains_append_right
      · repeat first
          | exact strContains_self _
          | exact strContains_self_append _ _
          | exact strContains_append_left _ (strContains_self _)
          | apply strContains_append_right
  · rw [get_llm_pair_desc_odd s k h]
    refine ⟨?_, ?_, fun _ => ?_, fun he => by subst he; simp at h⟩
    · repeat first
        | exact strContains_self _
        | exact strContains_self_append _ _
        | exact strContains_append_left _ (strContains_self _)
        | apply strContains_append_right
    · repeat first
        | exact strContains_self _
        | exact strContains_self_append _ _
        | exact strContains_append_left _ (strContains_self _)
        | apply strContains_append_right
    · exact strContains_assoc_suffix _ _ _ _

/-- Closed witness for C7 at retry indices 2 and 0 on a concrete strategy. -/
theorem C7_description_witness :
    strContains (demoStrategy.get_llm_pair 2).2.2 demoStrategy.mainDisplayName = true ∧
    strContains (demoStrategy.get_llm_pair 2).2.2
      (" [重试 " ++ toString (2 : Int) ++ "]") = true ∧
    (demoStrategy.get_llm_pair 0).2.2 =
      demoStrategy.mainDisplayName ++ " (主) + " ++
        demoStrategy.advisorDisplayName ++ " (顾问)" := by
  have h2 := C7_description demoStrategy 2 (by decide)
  have h0 := C7_description demoStrategy 0 (by decide)
  exact ⟨h2.1, h2.2.2.1 (by decide), h0.2.2.2 rfl⟩

/-- C9: `get_llm_pair` accepts every negative retry count without error,
assigning roles by the parity of `retry_count % 2` under Python modulo
semantics (`Int.emod`): in particular index -1 selects the advisor handle
as primary and index -2 selects the main handle as primary. -/
theorem C9_negative_retry {α : Type} (s : RetryStrategy α) (k : Int) (hk : k < 0) :
    (k % 2 = 0 →
      (s.get_llm_pair k).1 = s.main_llm ∧ (s.get_llm_pair k).2.1 = s.advisor_llm) ∧
    (k % 2 = 1 →
      (s.get_llm_pair k).1 = s.advisor_llm ∧ (s.get_llm_pair k).2.1 = s.main_llm) ∧
    (s.get_llm_pair (-1)).1 = s.advisor_llm ∧
    (s.get_llm_pair (-1)).2.1 = s.main_llm ∧
    (s.get_llm_pair (-2)).1 = s.main_llm ∧
    (s.get_llm_pair (-2)).2.1 = s.advisor_llm := by
  obtain ⟨ha1, ha2⟩ := get_llm_pair_odd s (-1) (by decide)
  obtain ⟨hb1, hb2⟩ := get_llm_pair_even s (-2) (by decide)
  exact ⟨get_llm_pair_even s k, get_llm_pair_odd s k, ha1, ha2, hb1, hb2⟩

/-- Closed witness for C9 at retry count -1 on a concrete strategy. -/
theorem C9_negative_retry_witness :
    (demoStrategy.get_llm_pair (-1)).1 = demoStrategy.advisor_llm ∧
    (demoStrategy.get_llm_pair (-2)).1 = demoStrategy.main_llm := by
  have h := C9_negative_retry demoStrategy (-1) (by decide)
  exact ⟨h.2.2.1, h.2.2.2.2.1⟩

theorem extract_failed_methods_eq (fs : FinalState) (lbl : String) :
    (RetryStrategy.extract_attempt_summary fs lbl).failed_methods =
      some ((fs.action_history.getD []).filter isFailedAction) :=
  rfl

theorem extract_key_findings_eq (fs : FinalState) (lbl : String) :
    (RetryStrategy.extract_attempt_summary fs lbl).key_findings =
      some (fs.potential_vulnerabilities.getD []) := by
  unfold RetryStrategy.extract_attempt_summary
  by_cases h : (fs.potential_vulnerabilities.getD []).isEmpty
  · simp [h, List.isEmpty_iff.mp h]
  · simp [h]

/-- C2 counterexample: on a raw result whose action log holds 11 entries all
containing the keyword "error", the summary's `failed_methods` keeps all 11
entries — `extract_attempt_summary` itself does not truncate to 10. -/
theorem C2_counterexample :
    ¬ (((RetryStrategy.extract_attempt_summary
          ⟨some (List.replicate 11 "error"), none, some (List.replicate 6 "v"), none⟩
          "s").failed_methods.getD []).length ≤ 10 ∧
       ((RetryStrategy.extract_attempt_summary
          ⟨some (List.replicate 11 "error"), none, some (List.replicate 6 "v"), none⟩
          "s").key_findings.getD []).length ≤ 5) := by
  decide

/-- C2 (amended): `extract_attempt_summary` applies no truncation — its
`failed_methods` is exactly the full ordered list of qualifying action-log
entries and its `key_findings` the full discovered-facts list; the 10-entry
and 5-entry bounds are enforced only when `format_attempt_history` renders
the summary (at most 10 failed-method bullets and 5 key-finding bullets). -/
theorem C2_summarize_no_truncation (fs : FinalState) (lbl : String) :
    (RetryStrategy.extract_attempt_summary fs lbl).failed_methods =
      some ((fs.action_history.getD []).filter isFailedAction) ∧
    (RetryStrategy.extract_attempt_summary fs lbl).key_findings =
      some (fs.potential_vulnerabilities.getD []) ∧
    (failedMethodsBlock
      ((RetryStrategy.extract_attempt_summary fs lbl).failed_methods.getD [])).countP
      isFailedBullet ≤ 10 ∧
    (keyFindingsBlock
      ((RetryStrategy.extract_attempt_summary fs lbl).key_findings.getD [])).countP
      isFindingBullet ≤ 5 := by
  refine ⟨extract_failed_methods_eq fs lbl, extract_key_findings_eq fs lbl, ?_, ?_⟩
  · rw [countP_isFailedBullet_failedBlock]
    omega
  · rw [countP_isFindingBullet_findingBlock]
    omega

/-- C3: an action-log entry is classified as failed exactly when its
lowercased rendering contains one of the keywords "失败", "错误", "error",
"failed"; the summary's `failed_methods` is the order-preserving,
non-deduplicating filter of the action log by that test, and the spec's
concrete scenario evaluates as stated. -/
theorem C3_failed_classification (fs : FinalState) (lbl : String) :
    (∀ a : String, isFailedAction a = true ↔
      ∃ kw ∈ failureKeywords, kw.data <:+: (strLower a).data) ∧
    (RetryStrategy.extract_attempt_summary fs lbl).failed_methods =
      some ((fs.action_history.getD []).filter isFailedAction) ∧
    (RetryStrategy.extract_attempt_summary
      ⟨some ["tool call succeeded", "tool call failed: timeout", "错误: invalid input"],
       none, none, none⟩ lbl).failed_methods =
      some ["tool call failed: timeout", "错误: invalid input"] := by
  refine ⟨?_, extract_failed_methods_eq fs lbl, ?_⟩
  · intro a
    simp [isFailedAction, List.any_eq_true, strContains_iff]
  · rw [extract_failed_methods_eq]
    decide

/-- C6: the summary's `attempt_count` equals the number of messages whose
tool-invocation marker is present and non-empty. -/
theorem C6_attempt_count (fs : FinalState) (lbl : String) :
    (RetryStrategy.extract_attempt_summary fs lbl).attempts =
      some ((fs.messages.getD []).countP
        (fun m => !(m.tool_calls.getD []).isEmpty)) := by
  unfold RetryStrategy.extract_attempt_summary
  have h : (fun m => !(m.tool_calls.getD []).isEmpty) = hasToolCalls :=
    funext (fun m => (hasToolCalls_eq m).symm)
  rw [h]
  simp [List.countP_eq_length_filter]

/-- C8: `extract_attempt_summary` degrades gracefully on absent optional
fields — an absent action log yields empty `failed_methods`, absent
messages yield `attempt_count` 0, absent discovered facts yield empty
`key_findings`, and an absent timestamp passes through as the absent
value. -/
theorem C8_graceful_degradation (fs : FinalState) (lbl : String) :
    (fs.action_history = none →
      (RetryStrategy.extract_attempt_summary fs lbl).failed_methods = some []) ∧
    (fs.messages = none →
      (RetryStrategy.extract_attempt_summary fs lbl).attempts = some 0) ∧
    (fs.potential_vulnerabilities = none →
      (RetryStrategy.extract_attempt_summary fs lbl).key_findings = some []) ∧
    (fs.start_time = none →
      (RetryStrategy.extract_attempt_summary fs lbl).timestamp = none) := by
  refine ⟨fun h => ?_, fun h => ?_, fun h => ?_, fun h => ?_⟩
  · rw [extract_failed_methods_eq, h]
    rfl
  · unfold RetryStrategy.extract_attempt_summary
    rw [h]
    rfl
  · rw [extract_key_findings_eq, h]
    rfl
  · unfold RetryStrategy.extract_attempt_summary
    rw [h]

/-- Closed witness for C8 on a raw result with every optional field absent. -/
theorem C8_graceful_degradation_witness :
    (RetryStrategy.extract_attempt_summary ⟨none, none, none, none⟩ "s").failed_methods =
      some [] ∧
    (RetryStrategy.extract_attempt_summary ⟨none, none, none, none⟩ "s").attempts =
      some 0 ∧
    (RetryStrategy.extract_attempt_summary ⟨none, none, none, none⟩ "s").key_findings =
      some [] ∧
    (RetryStrategy.extract_attempt_summary ⟨none, none, none, none⟩ "s").timestamp =
      none := by
  have h := C8_graceful_degradation ⟨none, none, none, none⟩ "s"
  exact ⟨h.1 rfl, h.2.1 rfl, h.2.2.1 rfl, h.2.2.2 rfl⟩

/-- An attempt-summary dict carrying 12 failed methods, used by C5. -/
def twelveRecord : AttemptRecord :=
  { strategy := none, attempts := none,
    failed_methods := some (List.replicate 12 "m"),
    key_findings := none, timestamp := none }

/-- C4: formatting an empty history returns the empty string with no
header; for any non-empty history the emitted parts list contains the
cautionary closing note exactly once, as its final element (after all
per-attempt sections), and the returned text is the join of those parts. -/
theorem C4_closing_note (h : List AttemptRecord) (hne : h ≠ []) :
    RetryStrategy.format_attempt_history [] = "" ∧
    (formatParts h).count closingNote = 1 ∧
    (formatParts h).getLast? = some closingNote ∧
    RetryStrategy.format_attempt_history h = String.join (formatParts h) := by
  refine ⟨rfl, count_closingNote_formatParts h, getLast_formatParts h, ?_⟩
  simp [RetryStrategy.format_attempt_history, List.isEmpty_iff, hne]

/-- Closed witness for C4 on a one-element history. -/
theorem C4_closing_note_witness :
    (formatParts [allNoneRecord]).count closingNote = 1 ∧
    (formatParts [allNoneRecord]).getLast? = some closingNote := by
  have h := C4_closing_note [allNoneRecord] (by decide)
  exact ⟨h.2.1, h.2.2.1⟩

/-- C5: each per-attempt section renders at most 10 failed-method bullets
(exactly `min 10` of the stored count) and at most 5 key-finding bullets,
each bullet list is emitted (with its sub-heading) only when the stored
sequence is non-empty, and a summary carrying 12 failed methods renders
exactly 10 failed-method bullets. -/
theorem C5_section_bullets (i : Nat) (a : AttemptRecord) :
    (formatAttemptSection i a).countP isFailedBullet =
      min 10 (a.failed_methods.getD []).length ∧
    (formatAttemptSection i a).countP isFindingBullet =
      min 5 (a.key_findings.getD []).length ∧
    (a.failed_methods.getD [] = [] →
      failedMethodsBlock (a.failed_methods.getD []) = []) ∧
    (a.failed_methods.getD [] ≠ [] →
      ∃ bs, failedMethodsBlock (a.failed_methods.getD []) =
        "- **已失败的方法**:\n" :: bs) ∧
    (a.key_findings.getD [] = [] →
      keyFindingsBlock (a.key_findings.getD []) = []) ∧
    (a.key_findings.getD [] ≠ [] →
      ∃ bs, keyFindingsBlock (a.key_findings.getD []) =
        "- **关键发现**:\n" :: bs) ∧
    (formatAttemptSection 1 twelveRecord).countP isFailedBullet = 10 := by
  refine ⟨countP_isFailedBullet_section i a, countP_isFindingBullet_section i a,
    fun h => ?_, fun h => ?_, fun h => ?_, fun h => ?_, by decide⟩
  · unfold failedMethodsBlock
    rw [if_pos (List.isEmpty_iff.mpr h)]
  · unfold failedMethodsBlock
    rw [if_neg (fun hc => h (List.isEmpty_iff.mp hc))]
    exact ⟨_, rfl⟩
  · unfold keyFindingsBlock
    rw [if_pos (List.isEmpty_iff.mpr h)]
  · unfold keyFindingsBlock
    rw [if_neg (fun hc => h (List.isEmpty_iff.mp hc))]
    exact ⟨_, rfl⟩

/-- Closed witness for C5 on the 12-failed-methods summary. -/
theorem C5_section_bullets_witness :
    (formatAttemptSection 1 twelveRecord).countP isFailedBullet = 10 ∧
    (∃ bs, failedMethodsBlock (twelveRecord.failed_methods.getD []) =
      "- **已失败的方法**:\n" :: bs) := by
  have h := C5_section_bullets 1 twelveRecord
  exact ⟨h.2.2.2.2.2.2, h.2.2.2.1 (by decide)⟩

/-- C10: `format_attempt_history` is total on summaries lacking any or all
fields — a missing strategy label renders as the placeholder "未知策略", a
missing attempt count renders as 0, missing bullet fields omit their bullet
blocks, while the attempt's section is still emitted and the closing note
still ends the emitted parts. -/
theorem C10_format_missing_fields (i : Nat) (a : AttemptRecord)
    (h : List AttemptRecord) (hne : h ≠ []) :
    (a.strategy = none → (formatAttemptSection i a).head? =
      some ("### 尝试 " ++ toString i ++ "：" ++ "未知策略" ++ "\n")) ∧
    (a.attempts = none → (formatAttemptSection i a)[1]? =
      some "- **尝试次数**: 0\n") ∧
    (a.failed_methods = none →
      failedMethodsBlock (a.failed_methods.getD []) = []) ∧
    (a.key_findings = none →
      keyFindingsBlock (a.key_findings.getD []) = []) ∧
    formatAttemptSection i a ≠ [] ∧
    RetryStrategy.format_attempt_history h = String.join (formatParts h) ∧
    (formatParts h).getLast? = some closingNote := by
  obtain ⟨rest, hr⟩ := formatAttemptSection_shape i a
  refine ⟨fun h1 => ?_, fun h2 => ?_, fun h3 => ?_, fun h4 => ?_, ?_, ?_,
    getLast_formatParts h⟩
  · rw [hr, h1]
    rfl
  · rw [hr, h2]
    simp only [List.getElem?_cons_succ, List.getElem?_cons_zero]
    decide
  · rw [h3]
    rfl
  · rw [h4]
    rfl
  · rw [hr]
    exact List.cons_ne_nil _ _
  · simp [RetryStrategy.format_attempt_history, List.isEmpty_iff, hne]

/-- Closed witness for C10 on an all-fields-absent summary. -/
theorem C10_format_missing_fields_witness :
    (formatAttemptSection 1 allNoneRecord).head? =
      some ("### 尝试 " ++ toString (1 : Nat) ++ "：" ++ "未知策略" ++ "\n") ∧
    (formatAttemptSection 1 allNoneRecord)[1]? = some "- **尝试次数**: 0\n" ∧
    failedMethodsBlock (allNoneRecord.failed_methods.getD []) = [] ∧
    formatAttemptSection 1 allNoneRecord ≠ [] ∧
    (formatParts [allNoneRecord]).getLast? = some closingNote := by
  have h := C10_format_missing_fields 1 allNoneRecord [allNoneRecord] (by decide)
  exact ⟨h.1 rfl, h.2.1 rfl, h.2.2.1 rfl, h.2.2.2.2.1, h.2.2.2.2.2.2⟩
